import Mathlib

/-!
Verification of the book-catalog browser (`scripts.js`): a shallow embedding
of its filter / pagination / render pipeline, followed by theorems settling
the specification claims.

Modelling conventions: DOM fragments are lists of the book records whose
previews they hold; the mutable globals `matches'` and `page` together with the
visible list, the "Show more" button and the "no results" message form an
explicit `AppState`; JavaScript array indices are `Int` (they can go negative
in this code) and `Array.prototype.slice` index normalisation is modelled
explicitly.
-/

/-- One catalog entry as consumed by `scripts.js`: id, image, title, author
identifier, genre list, publication date, description.  The title is kept as a
character list so the case-insensitive substring match of the filter handler
can be computed directly. -/
structure Book where
  id : String
  image : String
  title : List Char
  author : String
  genres : List String
  published : Int
  description : String
deriving DecidableEq

/-- Modelled from the spec: `BOOKS_PER_PAGE` is imported from `data.js`, which
is not among the sources; the spec fixes the page size at 36 ("book list has 40
entries, page size 36"), in agreement with the literal `36` hard-coded in
`createPreviewsFragment`. -/
def BOOKS_PER_PAGE : Nat := 36

/-- Effective index of JavaScript `Array.prototype.slice`: a negative index
counts from the end of the array (floored at 0), a non-negative one is capped
at the length. -/
def jsSliceStart (len : Nat) (i : Int) : Nat :=
  if i < 0 then ((len : Int) + i).toNat else min i.toNat len

/-- JavaScript `l.slice(s, e)` on a list, with full index normalisation. -/
def jsSlice (l : List α) (s e : Int) : List α :=
  (l.drop (jsSliceStart l.length s)).take (jsSliceStart l.length e - jsSliceStart l.length s)

/-- The index adjustment at the top of `createPreviewsFragment`:
`if (startIndex + 36 > matches'.length) { startIndex -= 36; endIndex = matches'.length; }`. -/
def clampWindow (len : Nat) (startIndex endIndex : Int) : Int × Int :=
  if (len : Int) < startIndex + 36 then (startIndex - 36, (len : Int)) else (startIndex, endIndex)

/-- `createPreviewsFragment(matches', startIndex, endIndex)`: the list of book
records whose previews end up in the returned fragment, i.e.
`matches'.slice(startIndex, endIndex)` after the clamp adjustment. -/
def createPreviewsFragment (matches' : List Book) (startIndex endIndex : Int) : List Book :=
  jsSlice matches' (clampWindow matches'.length startIndex endIndex).1
    (clampWindow matches'.length startIndex endIndex).2

/-- `updateRemainingButton()`: the remaining count finally displayed inside the
button (its `innerHTML` overwrites the earlier `innerText`), and the button's
`disabled` flag, as functions of `matches'.length` and `page`. -/
def updateRemainingButton (matchesLen page : Nat) : Int × Bool :=
  let remainingBooksCount : Int := (matchesLen : Int) - (page : Int) * (BOOKS_PER_PAGE : Int)
  let remainingBooksDisplay : Int := if 0 < remainingBooksCount then remainingBooksCount else 0
  (remainingBooksDisplay, !(decide (0 < remainingBooksCount)))

/-- The script's mutable state: the globals `matches'` and `page`, the book
records currently rendered in `html.list.items` (in document order), the
remaining count and disabled flag of the "Show more" button, and whether the
"no results" message is shown. -/
structure AppState where
  matches' : List Book
  page : Nat
  rendered : List Book
  remainingShown : Int
  buttonDisabled : Bool
  messageShown : Bool
deriving DecidableEq

/-- The module-level initial render:
`html.list.items.appendChild(createPreviewsFragment(matches'))` with
`matches' = books`, `page = 1` and the default range `[0, BOOKS_PER_PAGE]`. -/
def initialRender (books : List Book) : AppState :=
  { matches' := books
    page := 1
    rendered := createPreviewsFragment books 0 (BOOKS_PER_PAGE : Int)
    remainingShown := (updateRemainingButton books.length 1).1
    buttonDisabled := (updateRemainingButton books.length 1).2
    messageShown := false }

/-- `handleListButtonClick()`: increments `page`, then appends
`createPreviewsFragment(matches', page * BOOKS_PER_PAGE, (page + 1) * BOOKS_PER_PAGE)`
(note: with the already-incremented `page`). -/
def handleListButtonClick (s : AppState) : AppState :=
  let page := s.page + 1
  let frag := createPreviewsFragment s.matches' ((page : Int) * (BOOKS_PER_PAGE : Int))
    (((page : Int) + 1) * (BOOKS_PER_PAGE : Int))
  { s with
    page := page
    rendered := s.rendered ++ frag
    remainingShown := (updateRemainingButton s.matches'.length page).1
    buttonDisabled := (updateRemainingButton s.matches'.length page).2 }

/-- `k` successive clicks on the "Show more" button. -/
def clicksN : Nat → AppState → AppState
  | 0, s => s
  | k + 1, s => handleListButtonClick (clicksN k s)

/-- A throwaway book record used for concrete evaluations. -/
def mkBook (i : Nat) : Book :=
  { id := toString i, image := "", title := [], author := "", genres := [], published := 0,
    description := "" }

/-- The JavaScript whitespace class recognised by `String.prototype.trim`
(restricted to the characters that can realistically appear in a text input). -/
def isJsWhitespace (c : Char) : Bool :=
  c = ' ' || c = '\t' || c = '\n' || c = '\r' || c = '\x0b' || c = '\x0c' || c = ' '

/-- JavaScript `s.trim()`: strips leading and trailing whitespace. -/
def jsTrim (s : List Char) : List Char :=
  ((s.dropWhile isJsWhitespace).reverse.dropWhile isJsWhitespace).reverse

/-- Does the second list start with the first one? (helper for `containsSub`). -/
def listStartsWith : List Char → List Char → Bool
  | [], _ => true
  | _ :: _, [] => false
  | a :: as, b :: bs => a == b && listStartsWith as bs

/-- JavaScript `haystack.includes(needle)`: substring containment. -/
def containsSub (needle : List Char) : List Char → Bool
  | [] => needle.isEmpty
  | b :: bs => listStartsWith needle (b :: bs) || containsSub needle bs

/-- The filter criteria read from the search form: title text, author selector
and genre selector (the selectors use the sentinel value "any"). -/
structure Filters where
  title : List Char
  author : String
  genre : String
deriving DecidableEq

/-- The guard-clause loop of `handleFilterFormSubmit`, applied to the
already-processed criteria: `ft` is `filters.title.trim().toLowerCase()`,
`fa` is `filters.author`, `fg` is `filters.genre`. -/
def filterLoop (ft : List Char) (fa fg : String) : List Book → List Book
  | [] => []
  | b :: bs =>
    if !(ft.isEmpty || containsSub ft (b.title.map Char.toLower)) then filterLoop ft fa fg bs
    else if !(fa == "any" || b.author == fa) then filterLoop ft fa fg bs
    else if !(fg == "any" || b.genres.contains fg) then filterLoop ft fa fg bs
    else if (ft.isEmpty || containsSub ft (b.title.map Char.toLower))
        && (fa == "any" || b.author == fa) && (fg == "any" || b.genres.contains fg) then
      b :: filterLoop ft fa fg bs
    else filterLoop ft fa fg bs

/-- The conjunction of the three predicates of `handleFilterFormSubmit`: title
(empty criterion matches everything, otherwise case-insensitive substring
containment), author (sentinel "any" or exact identifier equality) and genre
(sentinel "any" or membership in the book's genre list). -/
def bookMatches (ft : List Char) (fa fg : String) (b : Book) : Bool :=
  (ft.isEmpty || containsSub ft (b.title.map Char.toLower))
    && (fa == "any" || b.author == fa) && (fg == "any" || b.genres.contains fg)

/-- `handleFilterFormSubmit(event)`: resets `page` to 1, filters the full book
list with the trimmed lower-cased title criterion, toggles the "no results"
message, clears the rendered list and renders the first fragment of the new
result set.  The previous state `s` is taken as an argument to express that the
outcome does not depend on it. -/
def handleFilterFormSubmit (books : List Book) (filters : Filters) (_s : AppState) : AppState :=
  let result := filterLoop ((jsTrim filters.title).map Char.toLower) filters.author filters.genre
    books
  { matches' := result
    page := 1
    rendered := createPreviewsFragment result 0 (BOOKS_PER_PAGE : Int)
    remainingShown := (updateRemainingButton result.length 1).1
    buttonDisabled := (updateRemainingButton result.length 1).2
    messageShown := decide (result.length < 1) }

/-- The inner loop of `handleListItemClick`: scan `books` for the first record
whose `id` equals the preview identifier, stopping at the first hit. -/
def findFirstBook : List Book → String → Option Book
  | [], _ => none
  | b :: bs, pid => if b.id == pid then some b else findFirstBook bs pid

/-- `handleListItemClick(event)`: walk the event path; a node without a truthy
`dataset.preview` (absent, or the falsy empty string) is skipped; for a node
with one, scan the full book list for the first record with that id; the first
resolvable node wins.  Returns the `active` record populating the detail
overlay, or `none` when the handler returns without visible effect. -/
def handleListItemClick (books : List Book) : List (Option String) → Option Book
  | [] => none
  | node :: rest =>
    match node with
    | none => handleListItemClick books rest
    | some previewId =>
      if previewId = "" then handleListItemClick books rest
      else
        match findFirstBook books previewId with
        | some b => some b
        | none => handleListItemClick books rest

/-- The detail-overlay lookup as the spec words it: the first event-path node
carrying a preview identifier that matches some book's id selects the first
matching book of the Book Store; if no node resolves, nothing happens. -/
def detailLookupSpec (books : List Book) (path : List (Option String)) : Option Book :=
  path.findSome? fun node =>
    node.bind fun previewId =>
      if previewId = "" then none else books.find? fun b => b.id == previewId

/-! ### Helper lemmas about the embedded operations -/

theorem jsSliceStart_le (len : Nat) (i : Int) : jsSliceStart len i ≤ len := by
  unfold jsSliceStart
  split_ifs with h
  · omega
  · exact Nat.min_le_right _ _

theorem filterLoop_eq_filter (ft : List Char) (fa fg : String) (books : List Book) :
    filterLoop ft fa fg books = books.filter (bookMatches ft fa fg) := by
  induction books with
  | nil => rfl
  | cons b bs ih =>
    rcases Bool.eq_false_or_eq_true (ft.isEmpty || containsSub ft (b.title.map Char.toLower))
        with h1 | h1 <;>
      rcases Bool.eq_false_or_eq_true (fa == "any" || b.author == fa) with h2 | h2 <;>
        rcases Bool.eq_false_or_eq_true (fg == "any" || b.genres.contains fg) with h3 | h3 <;>
          (simp only [filterLoop, List.filter_cons, bookMatches, h1, h2, h3]; simp [ih])

theorem createPreviewsFragment_no_clamp (m : List Book) (s : Nat) (h : s + 36 ≤ m.length) :
    createPreviewsFragment m (s : Int) ((s : Int) + 36) = (m.drop s).take 36 := by
  have hc : ¬ ((m.length : Int) < (s : Int) + 36) := by omega
  unfold createPreviewsFragment clampWindow
  rw [if_neg hc]
  unfold jsSlice jsSliceStart
  have h0 : ¬ ((s : Int) < 0) := by omega
  have h1 : ¬ ((s : Int) + 36 < 0) := by omega
  rw [if_neg h0, if_neg h1]
  have e0 : min (s : Int).toNat m.length = s := by omega
  have e1 : min ((s : Int) + 36).toNat m.length = s + 36 := by omega
  rw [e0, e1]
  congr 1
  omega

theorem createPreviewsFragment_clamp (m : List Book) (s : Nat) (h : m.length < s + 36) :
    createPreviewsFragment m (s : Int) ((s : Int) + 36)
      = m.drop (jsSliceStart m.length ((s : Int) - 36)) := by
  have hc : (m.length : Int) < (s : Int) + 36 := by omega
  unfold createPreviewsFragment clampWindow
  rw [if_pos hc]
  unfold jsSlice
  have hb : jsSliceStart m.length (m.length : Int) = m.length := by
    unfold jsSliceStart
    rw [if_neg (by omega)]
    omega
  rw [hb]
  exact List.take_of_length_le (by simp)

theorem createPreviewsFragment_initial (m : List Book) :
    createPreviewsFragment m 0 (BOOKS_PER_PAGE : Int) = m.take BOOKS_PER_PAGE := by
  have hB : (BOOKS_PER_PAGE : Int) = ((0 : Nat) : Int) + 36 := by
    unfold BOOKS_PER_PAGE
    omega
  by_cases h : m.length < 36
  · have := createPreviewsFragment_clamp m 0 (by omega)
    rw [hB]
    show createPreviewsFragment m ((0 : Nat) : Int) _ = _
    rw [this]
    have ha : jsSliceStart m.length (((0 : Nat) : Int) - 36) = 0 := by
      unfold jsSliceStart
      rw [if_pos (by omega)]
      omega
    rw [ha, List.drop_zero, List.take_of_length_le]
    unfold BOOKS_PER_PAGE
    omega
  · have := createPreviewsFragment_no_clamp m 0 (by omega)
    rw [hB]
    show createPreviewsFragment m ((0 : Nat) : Int) _ = _
    rw [this, List.drop_zero]
    rfl

/-! ### The claims -/

/-- C1.  `handleFilterFormSubmit` computes exactly the ordered subsequence of
the full book list satisfying the three predicates under AND semantics (title:
case-insensitive substring containment of the processed criterion, with the
empty criterion matching every book; author: "any" or exact identifier
equality; genre: "any" or membership in the book's genre list): the result set
equals `books.filter` of the conjunctive predicate, and is a sublist — hence a
subset preserving original relative order — of the full book list. -/
theorem filter_submit_computes_ordered_subsequence (books : List Book) (f : Filters)
    (s : AppState) :
    (handleFilterFormSubmit books f s).matches'
        = books.filter (bookMatches ((jsTrim f.title).map Char.toLower) f.author f.genre)
      ∧ List.Sublist (handleFilterFormSubmit books f s).matches' books := by
  have hm : (handleFilterFormSubmit books f s).matches'
      = books.filter (bookMatches ((jsTrim f.title).map Char.toLower) f.author f.genre) := by
    unfold handleFilterFormSubmit
    exact filterLoop_eq_filter _ _ _ _
  exact ⟨hm, hm ▸ List.filter_sublist books⟩

/-- C5.  After every render pass the "Show more" control displays exactly
`max 0 (totalMatches − page × BOOKS_PER_PAGE)` and is disabled exactly when
`totalMatches − page × BOOKS_PER_PAGE ≤ 0`. -/
theorem remaining_count_and_disabled_contract (len p : Nat) :
    (updateRemainingButton len p).1 = max 0 ((len : Int) - (p : Int) * (BOOKS_PER_PAGE : Int))
      ∧ ((updateRemainingButton len p).2 = true
          ↔ (len : Int) - (p : Int) * (BOOKS_PER_PAGE : Int) ≤ 0) := by
  unfold updateRemainingButton
  constructor
  · dsimp only
    split_ifs with h
    · omega
    · omega
  · simp only [Bool.not_eq_eq_eq_not, Bool.not_true, decide_eq_false_iff_not, not_lt]
    try omega

/-- C8.  Every filter submission, whatever state was reached before it, resets
the current page to 1, clears the previously rendered items and renders exactly
the first window of the new result set. -/
theorem filter_submit_resets_to_first_window (books : List Book) (f : Filters) (s : AppState) :
    (handleFilterFormSubmit books f s).page = 1
      ∧ (handleFilterFormSubmit books f s).rendered
          = (handleFilterFormSubmit books f s).matches'.take BOOKS_PER_PAGE := by
  refine ⟨rfl, ?_⟩
  show createPreviewsFragment _ 0 (BOOKS_PER_PAGE : Int) = _
  exact createPreviewsFragment_initial _

theorem handleListButtonClick_rendered (s : AppState) :
    (handleListButtonClick s).rendered
      = s.rendered ++ createPreviewsFragment s.matches'
          (((s.page + 1) * 36 : Nat) : Int)
          ((((s.page + 1) * 36 : Nat) : Int) + 36) := by
  have h1 : (((s.page + 1 : Nat) : Int)) * (BOOKS_PER_PAGE : Int)
      = (((s.page + 1) * 36 : Nat) : Int) := by
    unfold BOOKS_PER_PAGE
    push_cast
    ring
  have h2 : (((s.page + 1 : Nat) : Int) + 1) * (BOOKS_PER_PAGE : Int)
      = (((s.page + 1) * 36 : Nat) : Int) + 36 := by
    unfold BOOKS_PER_PAGE
    push_cast
    ring
  show s.rendered ++ createPreviewsFragment s.matches' _ _ = _
  rw [h1, h2]

theorem updateRemainingButton_exhausted (len p : Nat) (h : len ≤ p * 36) :
    updateRemainingButton len p = (0, true) := by
  have hc : ¬ (0 < (len : Int) - (p : Int) * ((BOOKS_PER_PAGE : Nat) : Int)) := by
    unfold BOOKS_PER_PAGE
    push_cast
    omega
  unfold updateRemainingButton
  dsimp only
  rw [if_neg hc]
  simp [hc]

set_option maxRecDepth 4000 in
/-- C6.  With a 40-entry book list and page size 36: the initial render shows
indices [0,36) with 4 reported remaining and the control enabled; after one
"show more" click exactly the items at indices [36,40) are additionally
rendered, the control reports 0 and is disabled. -/
theorem forty_books_scenario (books : List Book) (h : books.length = 40) :
    (initialRender books).rendered = books.take 36
      ∧ (initialRender books).remainingShown = 4
      ∧ (initialRender books).buttonDisabled = false
      ∧ (handleListButtonClick (initialRender books)).rendered = books.take 36 ++ books.drop 36
      ∧ (handleListButtonClick (initialRender books)).remainingShown = 0
      ∧ (handleListButtonClick (initialRender books)).buttonDisabled = true := by
  have hr : (initialRender books).rendered = books.take 36 := by
    show createPreviewsFragment books 0 (BOOKS_PER_PAGE : Int) = _
    rw [createPreviewsFragment_initial]
    rfl
  have hrem : (initialRender books).remainingShown = 4 := by
    show (updateRemainingButton books.length 1).1 = 4
    rw [h]
    decide
  have hdis : (initialRender books).buttonDisabled = false := by
    show (updateRemainingButton books.length 1).2 = false
    rw [h]
    decide
  have hclick : (handleListButtonClick (initialRender books)).rendered
      = books.take 36 ++ books.drop 36 := by
    rw [handleListButtonClick_rendered]
    have hp : (initialRender books).page = 1 := rfl
    have hm : (initialRender books).matches' = books := rfl
    rw [hp, hm, hr]
    congr 1
    rw [createPreviewsFragment_clamp books ((1 + 1) * 36) (by omega)]
    congr 1
    rw [h]
    decide
  have hrem2 : (handleListButtonClick (initialRender books)).remainingShown = 0 := by
    show (updateRemainingButton books.length 2).1 = 0
    rw [h]
    decide
  have hdis2 : (handleListButtonClick (initialRender books)).buttonDisabled = true := by
    show (updateRemainingButton books.length 2).2 = true
    rw [h]
    decide
  exact ⟨hr, hrem, hdis, hclick, hrem2, hdis2⟩

theorem forty_books_scenario_witness :
    ((List.range 40).map mkBook).length = 40
      ∧ ((initialRender ((List.range 40).map mkBook)).rendered
            = ((List.range 40).map mkBook).take 36
          ∧ (initialRender ((List.range 40).map mkBook)).remainingShown = 4
          ∧ (initialRender ((List.range 40).map mkBook)).buttonDisabled = false
          ∧ (handleListButtonClick (initialRender ((List.range 40).map mkBook))).rendered
              = ((List.range 40).map mkBook).take 36 ++ ((List.range 40).map mkBook).drop 36
          ∧ (handleListButtonClick (initialRender ((List.range 40).map mkBook))).remainingShown
              = 0
          ∧ (handleListButtonClick (initialRender ((List.range 40).map mkBook))).buttonDisabled
              = true) :=
  ⟨by decide, forty_books_scenario ((List.range 40).map mkBook) (by decide)⟩

theorem click_exhausted (s : AppState) (h : s.matches'.length ≤ s.page * 36) :
    (handleListButtonClick s).rendered = s.rendered
      ∧ (handleListButtonClick s).matches' = s.matches'
      ∧ (handleListButtonClick s).page = s.page + 1
      ∧ (handleListButtonClick s).remainingShown = 0
      ∧ (handleListButtonClick s).buttonDisabled = true := by
  have hfrag : createPreviewsFragment s.matches' (((s.page + 1) * 36 : Nat) : Int)
      ((((s.page + 1) * 36 : Nat) : Int) + 36) = [] := by
    rw [createPreviewsFragment_clamp s.matches' ((s.page + 1) * 36) (by omega)]
    have ha : jsSliceStart s.matches'.length ((((s.page + 1) * 36 : Nat) : Int) - 36)
        = s.matches'.length := by
      unfold jsSliceStart
      rw [if_neg (by push_cast; omega)]
      push_cast
      omega
    rw [ha, List.drop_length]
  have hbtn : updateRemainingButton s.matches'.length (s.page + 1) = (0, true) :=
    updateRemainingButton_exhausted _ _ (by omega)
  refine ⟨?_, rfl, rfl, ?_, ?_⟩
  · rw [handleListButtonClick_rendered, hfrag, List.append_nil]
  · show (updateRemainingButton s.matches'.length (s.page + 1)).1 = 0
    rw [hbtn]
  · show (updateRemainingButton s.matches'.length (s.page + 1)).2 = true
    rw [hbtn]

theorem clicksN_exhausted (s : AppState) (h : s.matches'.length ≤ s.page * 36)
    (k : Nat) :
    (clicksN k s).matches' = s.matches'
      ∧ (clicksN k s).page = s.page + k
      ∧ (clicksN k s).rendered = s.rendered
      ∧ (clicksN k s).matches'.length ≤ (clicksN k s).page * 36 := by
  induction k with
  | zero => exact ⟨rfl, rfl, rfl, h⟩
  | succ k ih =>
    obtain ⟨im, ip, ir, ie⟩ := ih
    obtain ⟨cr, cm, cp, _, _⟩ := click_exhausted (clicksN k s) ie
    refine ⟨by rw [show clicksN (k + 1) s = handleListButtonClick (clicksN k s) from rfl, cm, im],
      ?_, ?_, ?_⟩
    · rw [show clicksN (k + 1) s = handleListButtonClick (clicksN k s) from rfl, cp, ip]
      omega
    · rw [show clicksN (k + 1) s = handleListButtonClick (clicksN k s) from rfl, cr, ir]
    · rw [show clicksN (k + 1) s = handleListButtonClick (clicksN k s) from rfl, cm, cp]
      calc (clicksN k s).matches'.length ≤ (clicksN k s).page * 36 := ie
        _ ≤ ((clicksN k s).page + 1) * 36 := by omega

/-- C7.  Once the current result set is exhausted (the remaining count is zero,
i.e. `matches.length ≤ page * BOOKS_PER_PAGE`), any positive number of further
"show more" clicks appends no preview item, and after each such click the
control reports zero remaining and stays disabled. -/
theorem show_more_after_exhaustion_noop (s : AppState)
    (h : s.matches'.length ≤ s.page * BOOKS_PER_PAGE) (k : Nat) (hk : 1 ≤ k) :
    (clicksN k s).rendered = s.rendered
      ∧ (clicksN k s).remainingShown = 0
      ∧ (clicksN k s).buttonDisabled = true := by
  obtain ⟨k, rfl⟩ : ∃ j, k = j + 1 := ⟨k - 1, by omega⟩
  have h36 : s.matches'.length ≤ s.page * 36 := h
  obtain ⟨im, ip, ir, ie⟩ := clicksN_exhausted s h36 k
  obtain ⟨cr, _, _, crem, cdis⟩ := click_exhausted (clicksN k s) ie
  have hstep : clicksN (k + 1) s = handleListButtonClick (clicksN k s) := rfl
  exact ⟨by rw [hstep, cr, ir], by rw [hstep, crem], by rw [hstep, cdis]⟩

theorem show_more_after_exhaustion_noop_witness :
    ((initialRender ((List.range 20).map mkBook)).matches'.length
        ≤ (initialRender ((List.range 20).map mkBook)).page * BOOKS_PER_PAGE)
      ∧ (1 ≤ 2)
      ∧ ((clicksN 2 (initialRender ((List.range 20).map mkBook))).rendered
            = (initialRender ((List.range 20).map mkBook)).rendered
          ∧ (clicksN 2 (initialRender ((List.range 20).map mkBook))).remainingShown = 0
          ∧ (clicksN 2 (initialRender ((List.range 20).map mkBook))).buttonDisabled = true) :=
  ⟨by decide, by decide,
    show_more_after_exhaustion_noop (initialRender ((List.range 20).map mkBook)) (by decide) 2
      (by decide)⟩

/-- A 108-entry result set: the smallest length at which a first "show more"
click skips books. -/
def bs108 : List Book := (List.range 108).map mkBook

/-- A 143-entry result set: two "show more" clicks re-append already rendered
books. -/
def bs143 : List Book := (List.range 143).map mkBook

set_option maxRecDepth 40000 in
/-- C2 (code bug).  A "show more" click does not append the next window.  On a
108-entry result set the initial render shows indices [0,36); one click appends
the slice [72,108) — not the next window [36,72), whose books are skipped —
because `handleListButtonClick` increments `page` before computing
`startIndex = page * BOOKS_PER_PAGE`.  On a 143-entry result set a second click
re-appends previously rendered books: book 72 ends up rendered twice. -/
theorem show_more_skips_and_duplicates :
    (handleListButtonClick (initialRender bs108)).rendered
        = bs108.take 36 ++ (bs108.drop 72).take 36
      ∧ (bs108.drop 72).take 36 ≠ (bs108.drop 36).take 36
      ∧ (clicksN 2 (initialRender bs143)).rendered.count (mkBook 72) = 2 :=
  ⟨by decide, by decide, by decide⟩

/-- C3 counterexample.  On the initial render of an empty result set (reachable
via a filter with no matches) the window computed for slicing has start index
−36: the computed start index is not always ≥ 0. -/
theorem negative_start_index_counterexample :
    (clampWindow (List.length ([] : List Book)) 0 (BOOKS_PER_PAGE : Int)).1 = -36
      ∧ (clampWindow (List.length ([] : List Book)) 0 (BOOKS_PER_PAGE : Int)).1 < 0 := by
  decide

/-- C3 amended.  For every render pass (all call sites pass a non-negative
start index and end index = start + 36), the adjusted end index never exceeds
the result set's length and the effective window after JavaScript slice
normalisation lies within [0, length] with a well-ordered pair of bounds; the
computed start index itself can be negative but never drops below −36. -/
theorem effective_window_in_bounds (m : List Book) (s : Int) (h : 0 ≤ s) :
    -36 ≤ (clampWindow m.length s (s + 36)).1
      ∧ (clampWindow m.length s (s + 36)).2 ≤ (m.length : Int)
      ∧ jsSliceStart m.length (clampWindow m.length s (s + 36)).1 ≤ m.length
      ∧ jsSliceStart m.length (clampWindow m.length s (s + 36)).2 ≤ m.length
      ∧ jsSliceStart m.length (clampWindow m.length s (s + 36)).1
          ≤ jsSliceStart m.length (clampWindow m.length s (s + 36)).2 := by
  refine ⟨?_, ?_, ?_, ?_, ?_⟩ <;> (simp only [clampWindow, jsSliceStart]; split_ifs <;> omega)

theorem effective_window_in_bounds_witness :
    ((0 : Int) ≤ 0)
      ∧ (-36 ≤ (clampWindow [mkBook 0].length 0 (0 + 36)).1
          ∧ (clampWindow [mkBook 0].length 0 (0 + 36)).2 ≤ ([mkBook 0].length : Int)
          ∧ jsSliceStart [mkBook 0].length (clampWindow [mkBook 0].length 0 (0 + 36)).1
              ≤ [mkBook 0].length
          ∧ jsSliceStart [mkBook 0].length (clampWindow [mkBook 0].length 0 (0 + 36)).2
              ≤ [mkBook 0].length
          ∧ jsSliceStart [mkBook 0].length (clampWindow [mkBook 0].length 0 (0 + 36)).1
              ≤ jsSliceStart [mkBook 0].length (clampWindow [mkBook 0].length 0 (0 + 36)).2) :=
  ⟨by decide, effective_window_in_bounds [mkBook 0] 0 (by decide)⟩

/-- A 100-entry result set, used to exhibit a clamped window of 64 items. -/
def bs100 : List Book := (List.range 100).map mkBook

/-- C4 counterexample.  With a 100-entry result set and the nominal window
[72,108) (the window requested by the first "show more" click), the clamp
fires and the rendered window contains 64 items: more than pageSize = 36, so
the clamped window is not "the last pageSize items or fewer". -/
theorem clamped_window_exceeds_page_size_counterexample :
    ((bs100.length : Int) < 72 + 36)
      ∧ (createPreviewsFragment bs100 72 108).length = 64
      ∧ BOOKS_PER_PAGE < (createPreviewsFragment bs100 72 108).length := by
  refine ⟨by decide, by decide, by decide⟩

/-- C4 amended.  Whenever the nominal window [s, s+36) would overrun the result
set, the rendered window is the suffix of the result set starting at the
effective index of s − 36: it ends at the result set's length, but contains up
to 2 × pageSize − 1 items (not at most pageSize). -/
theorem clamped_window_is_bounded_suffix (m : List Book) (s : Nat)
    (h : m.length < s + 36) :
    createPreviewsFragment m (s : Int) ((s : Int) + 36)
        = m.drop (jsSliceStart m.length ((s : Int) - 36))
      ∧ (createPreviewsFragment m (s : Int) ((s : Int) + 36)).length
          ≤ 2 * BOOKS_PER_PAGE - 1 := by
  refine ⟨createPreviewsFragment_clamp m s h, ?_⟩
  rw [createPreviewsFragment_clamp m s h, List.length_drop]
  unfold jsSliceStart BOOKS_PER_PAGE
  split_ifs <;> omega

theorem clamped_window_is_bounded_suffix_witness :
    (bs100.length < 72 + 36)
      ∧ (createPreviewsFragment bs100 ((72 : Nat) : Int) (((72 : Nat) : Int) + 36)
            = bs100.drop (jsSliceStart bs100.length (((72 : Nat) : Int) - 36))
          ∧ (createPreviewsFragment bs100 ((72 : Nat) : Int) (((72 : Nat) : Int) + 36)).length
              ≤ 2 * BOOKS_PER_PAGE - 1) :=
  ⟨by decide, clamped_window_is_bounded_suffix bs100 72 (by decide)⟩

theorem findFirstBook_eq_find? (books : List Book) (pid : String) :
    findFirstBook books pid = books.find? fun b => b.id == pid := by
  induction books with
  | nil => rfl
  | cons b bs ih =>
    unfold findFirstBook
    split_ifs with h <;> simp [List.find?_cons, h, ih]

theorem handleListItemClick_cons_none (books : List Book) (rest : List (Option String)) :
    handleListItemClick books (none :: rest) = handleListItemClick books rest := rfl

theorem handleListItemClick_cons_empty (books : List Book) (rest : List (Option String)) :
    handleListItemClick books (some "" :: rest) = handleListItemClick books rest := by
  simp [handleListItemClick]

theorem handleListItemClick_cons_hit (books : List Book) (rest : List (Option String))
    (pid : String) (b : Book) (hp : pid ≠ "")
    (hf : (books.find? fun c => c.id == pid) = some b) :
    handleListItemClick books (some pid :: rest) = some b := by
  rw [show handleListItemClick books (some pid :: rest)
      = if pid = "" then handleListItemClick books rest
        else match findFirstBook books pid with
          | some b => some b
          | none => handleListItemClick books rest from rfl]
  rw [if_neg hp, findFirstBook_eq_find?, hf]

theorem handleListItemClick_cons_miss (books : List Book) (rest : List (Option String))
    (pid : String) (hp : pid ≠ "")
    (hf : (books.find? fun c => c.id == pid) = none) :
    handleListItemClick books (some pid :: rest) = handleListItemClick books rest := by
  rw [show handleListItemClick books (some pid :: rest)
      = if pid = "" then handleListItemClick books rest
        else match findFirstBook books pid with
          | some b => some b
          | none => handleListItemClick books rest from rfl]
  rw [if_neg hp, findFirstBook_eq_find?, hf]

theorem handleListItemClick_eq_spec (books : List Book) (path : List (Option String)) :
    handleListItemClick books path = detailLookupSpec books path := by
  induction path with
  | nil => rfl
  | cons node rest ih =>
    cases node with
    | none =>
      rw [handleListItemClick_cons_none, ih]
      simp [detailLookupSpec, List.findSome?_cons]
    | some pid =>
      by_cases hp : pid = ""
      · subst hp
        rw [handleListItemClick_cons_empty, ih]
        simp [detailLookupSpec, List.findSome?_cons]
      · cases hf : books.find? (fun c => c.id == pid) with
        | none =>
          rw [handleListItemClick_cons_miss books rest pid hp hf, ih]
          simp [detailLookupSpec, List.findSome?_cons, hp, hf]
        | some b =>
          rw [handleListItemClick_cons_hit books rest pid b hp hf]
          simp [detailLookupSpec, List.findSome?_cons, hp, hf]

theorem handleListItemClick_none_iff (books : List Book) (path : List (Option String)) :
    handleListItemClick books path = none ↔
      ∀ pid : String, some pid ∈ path → pid ≠ ""
        → (books.find? fun b => b.id == pid) = none := by
  induction path with
  | nil => simp [handleListItemClick]
  | cons node rest ih =>
    cases node with
    | none =>
      rw [handleListItemClick_cons_none, ih]
      constructor
      · intro hall pid hmem hne
        rcases List.mem_cons.mp hmem with hmem | hmem
        · exact absurd hmem (by simp)
        · exact hall pid hmem hne
      · intro hall pid hmem hne
        exact hall pid (List.mem_cons.mpr (Or.inr hmem)) hne
    | some pid =>
      by_cases hp : pid = ""
      · subst hp
        rw [handleListItemClick_cons_empty, ih]
        constructor
        · intro hall q hmem hne
          rcases List.mem_cons.mp hmem with hmem | hmem
          · exact absurd (Option.some_injective _ hmem) hne
          · exact hall q hmem hne
        · intro hall q hmem hne
          exact hall q (List.mem_cons.mpr (Or.inr hmem)) hne
      · cases hf : books.find? (fun c => c.id == pid) with
        | none =>
          rw [handleListItemClick_cons_miss books rest pid hp hf, ih]
          constructor
          · intro hall q hmem hne
            rcases List.mem_cons.mp hmem with hmem | hmem
            · rw [Option.some_injective _ hmem]
              exact hf
            · exact hall q hmem hne
          · intro hall q hmem hne
            exact hall q (List.mem_cons.mpr (Or.inr hmem)) hne
        | some b =>
          rw [handleListItemClick_cons_hit books rest pid b hp hf]
          constructor
          · intro hcontra
            exact absurd hcontra (by simp)
          · intro hall
            have := hall pid (List.mem_cons_self _ _) hp
            rw [this] at hf
            exact absurd hf (by simp)

/-- C9.  The detail-overlay handler: it matches the spec-level description
(first event-path node with a preview identifier matching some book's id wins,
resolved to the first matching book of the Book Store); the inner scan is a
first-match linear scan (equal to `List.find?`); and the handler is a no-op
(returns no active record) exactly when no node of the event path carries a
(non-empty) preview identifier matching some book. -/
theorem detail_overlay_lookup_contract (books : List Book) (path : List (Option String)) :
    handleListItemClick books path = detailLookupSpec books path
      ∧ (∀ pid : String, findFirstBook books pid = books.find? fun b => b.id == pid)
      ∧ (handleListItemClick books path = none ↔
          ∀ pid : String, some pid ∈ path → pid ≠ ""
            → (books.find? fun b => b.id == pid) = none) :=
  ⟨handleListItemClick_eq_spec books path, fun pid => findFirstBook_eq_find? books pid,
    handleListItemClick_none_iff books path⟩

/-- Two concrete books for exercising the detail-overlay lookup. -/
def demoBooks : List Book := [{ mkBook 1 with id := "b1" }, { mkBook 2 with id := "b2" }]

/-- A concrete event path: a node without identifier, one with the falsy empty
identifier, one with an unresolvable identifier, then a resolvable one. -/
def demoPath : List (Option String) := [none, some "", some "zz", some "b2", some "b1"]

theorem detail_overlay_lookup_contract_witness :
    handleListItemClick demoBooks demoPath = detailLookupSpec demoBooks demoPath
      ∧ handleListItemClick demoBooks demoPath = some { mkBook 2 with id := "b2" } :=
  ⟨(detail_overlay_lookup_contract demoBooks demoPath).1, by decide⟩

theorem dropWhile_eq_nil_of_all (p : Char → Bool) (l : List Char) (h : l.all p = true) :
    l.dropWhile p = [] := by
  induction l with
  | nil => rfl
  | cons a as ih =>
    rw [List.all_cons, Bool.and_eq_true] at h
    rw [List.dropWhile_cons_of_pos h.1]
    exact ih h.2

theorem jsTrim_nil_of_ws (t : List Char) (h : t.all isJsWhitespace = true) : jsTrim t = [] := by
  unfold jsTrim
  rw [dropWhile_eq_nil_of_all _ _ h]
  rfl

theorem dropWhile_head?_false (p : Char → Bool) (l : List Char) (a : Char)
    (h : (l.dropWhile p).head? = some a) : p a = false := by
  induction l with
  | nil => simp [List.dropWhile] at h
  | cons b bs ih =>
    by_cases hb : p b = true
    · rw [List.dropWhile_cons_of_pos hb] at h
      exact ih h
    · rw [List.dropWhile_cons_of_neg (by simpa using hb)] at h
      rw [List.head?_cons, Option.some_inj] at h
      rw [← h]
      simpa using hb

theorem dropWhile_eq_self_of_head (p : Char → Bool) (l : List Char)
    (h : ∀ a, l.head? = some a → p a = false) : l.dropWhile p = l := by
  cases l with
  | nil => rfl
  | cons b bs => exact List.dropWhile_cons_of_neg (by simp [h b rfl])

theorem jsTrim_idem (t : List Char) : jsTrim (jsTrim t) = jsTrim t := by
  have hu : t.dropWhile isJsWhitespace
      = ((t.dropWhile isJsWhitespace).reverse.dropWhile isJsWhitespace).reverse
        ++ ((t.dropWhile isJsWhitespace).reverse.takeWhile isJsWhitespace).reverse := by
    conv_lhs => rw [← List.reverse_reverse (t.dropWhile isJsWhitespace),
      ← List.takeWhile_append_dropWhile isJsWhitespace (t.dropWhile isJsWhitespace).reverse,
      List.reverse_append]
  have hD : ((t.dropWhile isJsWhitespace).reverse.dropWhile isJsWhitespace).reverse.dropWhile
      isJsWhitespace
      = ((t.dropWhile isJsWhitespace).reverse.dropWhile isJsWhitespace).reverse := by
    apply dropWhile_eq_self_of_head
    intro a ha
    apply dropWhile_head?_false isJsWhitespace t a
    rw [hu]
    cases hr : ((t.dropWhile isJsWhitespace).reverse.dropWhile isJsWhitespace).reverse with
    | nil => rw [hr] at ha; simp at ha
    | cons x xs =>
      rw [hr] at ha
      rw [List.head?_cons, Option.some_inj] at ha
      rw [List.cons_append, List.head?_cons, Option.some_inj]
      exact ha
  have hD2 : ((t.dropWhile isJsWhitespace).reverse.dropWhile isJsWhitespace).dropWhile
      isJsWhitespace
      = (t.dropWhile isJsWhitespace).reverse.dropWhile isJsWhitespace := by
    apply dropWhile_eq_self_of_head
    intro a ha
    exact dropWhile_head?_false isJsWhitespace (t.dropWhile isJsWhitespace).reverse a ha
  show ((((t.dropWhile isJsWhitespace).reverse.dropWhile isJsWhitespace).reverse.dropWhile
      isJsWhitespace).reverse.dropWhile isJsWhitespace).reverse
    = ((t.dropWhile isJsWhitespace).reverse.dropWhile isJsWhitespace).reverse
  rw [hD, List.reverse_reverse, hD2]

theorem handleFilterFormSubmit_title_congr (books : List Book) (t1 t2 : List Char)
    (fa fg : String) (s : AppState) (h : jsTrim t1 = jsTrim t2) :
    handleFilterFormSubmit books ⟨t1, fa, fg⟩ s = handleFilterFormSubmit books ⟨t2, fa, fg⟩ s := by
  unfold handleFilterFormSubmit
  dsimp only
  rw [h]

/-- C10.  The title criterion is trimmed before matching: every filter
submission produces the same outcome as the submission with the trimmed title
criterion, and a whitespace-only title criterion behaves exactly like the empty
one. -/
theorem title_trimmed_before_matching (books : List Book) (f : Filters) (s : AppState) :
    handleFilterFormSubmit books f s
        = handleFilterFormSubmit books ⟨jsTrim f.title, f.author, f.genre⟩ s
      ∧ (f.title.all isJsWhitespace = true →
          handleFilterFormSubmit books f s
            = handleFilterFormSubmit books ⟨[], f.author, f.genre⟩ s) := by
  have hsplit : f = ⟨f.title, f.author, f.genre⟩ := rfl
  constructor
  · conv_lhs => rw [hsplit]
    exact handleFilterFormSubmit_title_congr books f.title (jsTrim f.title) f.author f.genre s
      (jsTrim_idem f.title).symm
  · intro hws
    conv_lhs => rw [hsplit]
    exact handleFilterFormSubmit_title_congr books f.title [] f.author f.genre s
      (by rw [jsTrim_nil_of_ws f.title hws]; rfl)

theorem title_trimmed_before_matching_witness :
    (([' ', '\t'] : List Char).all isJsWhitespace = true)
      ∧ handleFilterFormSubmit demoBooks ⟨[' ', '\t'], "any", "any"⟩ (initialRender demoBooks)
          = handleFilterFormSubmit demoBooks ⟨[], "any", "any"⟩ (initialRender demoBooks) :=
  ⟨by decide,
    (title_trimmed_before_matching demoBooks ⟨[' ', '\t'], "any", "any"⟩
      (initialRender demoBooks)).2 (by decide)⟩

